import Mathlib

/-!
Verification of the t80m collection manager's identity / filename / record-store
core (`data_utils.py`, `filename_utils.py`, `csv_manager.py`) against its
natural-language specification.

Modelling conventions:
* A Python `dict[str, str]` is an association list with unique keys; the
  operations below reproduce `dict.get`, item access and item assignment.
* Python `float` values are modelled exactly: finite values as rationals
  (decimal numerals are parsed without IEEE rounding), plus the `inf`, `-inf`
  and `nan` literals, which the code's behaviour depends on.
* `datetime.datetime.fromtimestamp` is modelled at UTC offset zero via the
  standard civil-from-days calendar algorithm, returning `none` (an exception)
  for non-finite inputs and for instants outside year range 1..9999.
* Fallible Python code (uncaught exceptions) is modelled with `Option`:
  `none` means an exception propagates to the caller.
-/

/-! ## Python dictionaries as association lists -/

/-- Lookup in a `dict[str, β]`: `row[k]` when present (`row.get(k)` otherwise `None`). -/
def alistFind? {β : Type} : List (String × β) → String → Option β
  | [], _ => none
  | (k', v) :: rest, k => if k' = k then some v else alistFind? rest k

/-- `dict.get(k, d)`. -/
def alistGet {β : Type} (l : List (String × β)) (k : String) (d : β) : β :=
  (alistFind? l k).getD d

/-- `row[k] = v`: replace the value in place when the key exists, append otherwise. -/
def alistSet {β : Type} : List (String × β) → String → β → List (String × β)
  | [], k, v => [(k, v)]
  | (k', v') :: rest, k, v =>
    if k' = k then (k, v) :: rest else (k', v') :: alistSet rest k v

/-- A CSV row / record: a Python `dict[str, str]`. -/
abbrev Row := List (String × String)

/-- Python `x or y` on strings (the empty string is falsy). -/
def pyOr (a b : String) : String := if a = "" then b else a

/-- ASCII whitespace as recognised by `str.strip()` (model restricted to ASCII). -/
def isPySpace (c : Char) : Bool :=
  c = ' ' || c = '\t' || c = '\n' || c = '\r' || c = '\x0b' || c = '\x0c'

/-- Python `str.strip()`: drop leading and trailing whitespace. -/
def pyStrip (s : String) : String :=
  String.mk (((s.data.dropWhile (isPySpace ·)).reverse.dropWhile (isPySpace ·)).reverse)

/-- Python `str.lower()` (ASCII model). -/
def pyLower (s : String) : String := String.mk (s.data.map Char.toLower)

/-- Python `str.upper()` (ASCII model). -/
def pyUpper (s : String) : String := String.mk (s.data.map Char.toUpper)

/-- Python `str.rjust(n, c)`: pad on the left up to length `n`. -/
def pyRjust (s : String) (n : Nat) (c : Char) : String :=
  if n ≤ s.length then s else String.mk (List.replicate (n - s.length) c) ++ s

/-! ## Python floats -/

/-- An exact rational, kept as an explicit numerator/denominator pair (denominators
are positive in every value the parser constructs; fractions are not reduced,
which is observationally irrelevant for the code modelled here). -/
structure PyRat where
  num : Int
  den : Nat
deriving DecidableEq

/-- A Python `float` value, finite part kept exact. -/
inductive PyFloat where
  | finite (q : PyRat)
  | inf
  | ninf
  | nan
deriving DecidableEq

/-- Python truthiness of a float: only `0.0` is falsy (`nan` and infinities are truthy). -/
def pyFloatTruthy : PyFloat → Bool
  | .finite q => q.num ≠ 0
  | _ => true

/-- Python `<` on floats (cross-multiplication on positive denominators; `nan`
compares false with everything). -/
def pyFloatLt : PyFloat → PyFloat → Bool
  | .finite a, .finite b => a.num * (b.den : Int) < b.num * (a.den : Int)
  | .finite _, .inf => true
  | .ninf, .finite _ => true
  | .ninf, .inf => true
  | _, _ => false

/-- Python `min(a, b)`: return `b` when `b < a`, else `a` (first wins on ties). -/
def pyMin (a b : PyFloat) : PyFloat := if pyFloatLt b a then b else a

/-- Numeric value of a digit character. -/
def digToNat (c : Char) : Nat := c.toNat - 48

/-- Value of a most-significant-first digit string. -/
def digitsVal (cs : List Char) : Nat := cs.foldl (fun acc c => 10 * acc + digToNat c) 0

/-- Parse an optional exponent part (`e`/`E`, optional sign, digits) applied to `base`;
`none` when junk remains. Scaling by the power of ten is exact. -/
def parseExpPart (base : PyRat) (cs : List Char) : Option PyRat :=
  match cs with
  | [] => some base
  | c :: rest =>
    if c = 'e' ∨ c = 'E' then
      let neg : Bool := rest.head? = some '-'
      let rest2 := if rest.head? = some '-' ∨ rest.head? = some '+' then rest.tail else rest
      let ds := rest2.takeWhile (·.isDigit)
      let rest3 := rest2.dropWhile (·.isDigit)
      if ds = [] ∨ rest3 ≠ [] then none
      else if neg then some ⟨base.num, base.den * 10 ^ digitsVal ds⟩
      else some ⟨base.num * (10 ^ digitsVal ds : Nat), base.den⟩
    else none

/-- Parse an unsigned numeral `digits [. digits] [exp]` or `. digits [exp]`. -/
def parseUnsigned (cs : List Char) : Option PyRat :=
  let ip := cs.takeWhile (·.isDigit)
  let rest := cs.dropWhile (·.isDigit)
  match rest with
  | [] => if ip = [] then none else some ⟨digitsVal ip, 1⟩
  | '.' :: rest2 =>
    let fp := rest2.takeWhile (·.isDigit)
    let rest3 := rest2.dropWhile (·.isDigit)
    if ip = [] ∧ fp = [] then none
    else parseExpPart
      ⟨digitsVal ip * (10 ^ fp.length : Nat) + digitsVal fp, 10 ^ fp.length⟩ rest3
  | _ => if ip = [] then none else parseExpPart ⟨digitsVal ip, 1⟩ rest

/-- Python `float(s)`: strip whitespace, optional sign, then a numeral or one of the
`inf` / `infinity` / `nan` literals (case-insensitive); `none` models `ValueError`.
Decimal numerals are kept exact (no IEEE rounding); digit-group underscores are
not modelled. -/
def parsePyFloat (s : String) : Option PyFloat :=
  let cs0 := (pyStrip s).data
  let neg : Bool := cs0.head? = some '-'
  let cs : List Char :=
    if cs0.head? = some '-' ∨ cs0.head? = some '+' then cs0.tail else cs0
  let low := cs.map Char.toLower
  if low = ['i', 'n', 'f'] ∨ low = ['i', 'n', 'f', 'i', 'n', 'i', 't', 'y'] then
    some (if neg then .ninf else .inf)
  else if low = ['n', 'a', 'n'] then
    some .nan
  else
    match parseUnsigned cs with
    | some q => some (.finite (if neg then ⟨-q.num, q.den⟩ else q))
    | none => none

/-- Truncation toward zero, Python `int(float)` on a finite value. -/
def ratTrunc (q : PyRat) : Int := q.num.tdiv q.den

/-- Floor of an exact rational with positive denominator. -/
def ratFloor (q : PyRat) : Int := q.num.fdiv q.den

/-- Decimal digits, most significant first; structural recursion on a fuel bound so
that the definition reduces inside the kernel. -/
def natDigitsGo : Nat → Nat → List Char
  | 0, _ => []
  | fuel + 1, n =>
    if n < 10 then [Char.ofNat (48 + n)]
    else natDigitsGo fuel (n / 10) ++ [Char.ofNat (48 + n % 10)]

/-- Decimal digits of a natural number, most significant first. -/
def natDigits (n : Nat) : List Char := natDigitsGo (n + 1) n

/-- Python `str(int)`: canonical decimal rendering with a leading minus when negative. -/
def intStr : Int → String
  | .ofNat n => String.mk (natDigits n)
  | .negSucc n => String.mk ('-' :: natDigits (n + 1))

/-! ## Calendar rendering of timestamps -/

/-- Gregorian civil date `(year, month, day)` from days since 1970-01-01. -/
def civilFromDays (z0 : Int) : Int × Int × Int :=
  let z := z0 + 719468
  let era := z.fdiv 146097
  let doe := z - era * 146097
  let yoe := (doe - doe.fdiv 1460 + doe.fdiv 36524 - doe.fdiv 146096).fdiv 365
  let y := yoe + era * 400
  let doy := doe - (365 * yoe + yoe.fdiv 4 - yoe.fdiv 100)
  let mp := (5 * doy + 2).fdiv 153
  let d := doy - (153 * mp + 2).fdiv 5 + 1
  let m := mp + (if mp < 10 then 3 else -9)
  (y + (if m ≤ 2 then 1 else 0), m, d)

/-- Zero-padded two-digit rendering of a day or month number. -/
def pad2 (n : Int) : String := pyRjust (intStr n) 2 '0'

/-- Zero-padded four-digit rendering of a year number. -/
def pad4 (n : Int) : String := pyRjust (intStr n) 4 '0'

/-- `datetime.fromtimestamp(ts).strftime(%Y-%m-%d)` on a finite timestamp, at UTC;
`none` models the exception raised outside `datetime`'s year range 1..9999. -/
def fromtimestampDate (ts : PyRat) : Option String :=
  let days := (ratFloor ts).fdiv 86400
  let c := civilFromDays days
  if 1 ≤ c.1 ∧ c.1 ≤ 9999 then
    some (pad4 c.1 ++ "-" ++ pad2 c.2.1 ++ "-" ++ pad2 c.2.2)
  else none

/-- `datetime.fromtimestamp(ts).strftime(%Y-%m-%d)` on a Python float; non-finite
values raise (`OverflowError` / `ValueError`), modelled as `none`. -/
def pyFromtimestampDate : PyFloat → Option String
  | .finite q => fromtimestampDate q
  | _ => none

/-! ## data_utils.py -/

/-- `normalize_id` (`data_utils.py`): strip, then `str(int(float(s)))`, returning the
stripped original on `ValueError`/`TypeError`. `int()` of an infinity raises an
uncaught `OverflowError`, modelled as `none`; `int(nan)` raises `ValueError`,
which is caught. -/
def normalize_id (id_str : String) : Option String :=
  if id_str = "" then some id_str
  else
    let t := pyStrip id_str
    match parsePyFloat t with
    | some (.finite q) => some (intStr (ratTrunc q))
    | some .nan => some t
    | some .inf => none
    | some .ninf => none
    | none => some t

/-- `get_primary_game_id` (`data_utils.py`). The Python function's only falsy result
is the empty string (all three identifier fields default to `""`). -/
def get_primary_game_id (row : Row) : String :=
  let source := pyLower (pyStrip (alistGet row "source_with_bestversion" ""))
  let tic_id := alistGet row "tic_id" ""
  let itch_id := alistGet row "itch_id" ""
  let id_val := alistGet row "id" ""
  let preferred_id :=
    if source = "tic80com" ∨ source = "" then tic_id
    else if source = "itch" then itch_id
    else id_val
  if preferred_id ≠ "" then preferred_id
  else pyOr tic_id (pyOr itch_id id_val)

/-- `get_rom_category` (`data_utils.py`). -/
def get_rom_category (row : Row) : String :=
  let rom_source := pyOr (alistGet row "source_with_bestversion" "tic80com") "tic80com"
  pyOr (alistGet row "rom_category" "")
    (if rom_source = "itch" then "Itch"
     else if rom_source = "tic80com" then alistGet row "tic_category" "Games"
     else "Unclassified")

/-! ## filename_utils.py -/

/-- The dataclass returned by `generate_filename_and_gamename`. -/
structure FileInfo where
  pre_filename : String
  gamename : String
  rom_filename : String
  image_filename : String
deriving DecidableEq

/-- `FORBIDDEN_CHARS` (`config.py`). -/
def FORBIDDEN_CHARS : List Char := ['<', '>', ':', '"', '/', '\\', '|', '?', '*']

/-- Python `' '.join(s.split())` helper: split on whitespace runs, dropping empties. -/
def splitWsAux : List Char → List Char → List (List Char)
  | [], acc => if acc = [] then [] else [acc.reverse]
  | c :: rest, acc =>
    if isPySpace c then
      if acc = [] then splitWsAux rest [] else acc.reverse :: splitWsAux rest []
    else splitWsAux rest (c :: acc)

/-- Python `' '.join(s.split())`: collapse whitespace runs to single spaces, trim ends. -/
def collapseSpaces (s : String) : String :=
  String.intercalate " " ((splitWsAux s.data []).map String.mk)

/-- `create_safe_filename` (`filename_utils.py`): drop forbidden characters, collapse
whitespace. -/
def create_safe_filename (name : String) : String :=
  collapseSpaces (String.mk (name.data.filter (fun c => ¬ FORBIDDEN_CHARS.contains c)))

/-- The category-parenthesis suffix computed inline at step 2 of
`generate_filename_and_gamename` (lines 122-131). -/
def categorySuffix (game_category : String) (filename_category_parenthesis : Bool)
    (rom_folder_organization : String) : String :=
  if rom_folder_organization = "single" ∧ filename_category_parenthesis = true ∧
      game_category ≠ "Games" then
    let suffix_name :=
      if game_category = "Tools" then "Tool"
      else if game_category ≠ "Demoscene" ∧ game_category.data.getLast? = some 's' then
        String.mk game_category.data.dropLast
      else game_category
    " (" ++ suffix_name ++ ")"
  else ""

/-- The case transform of step 4 (lines 136-142), applied identically to the
pre-filename and the base filename name. -/
def applyCase (filename_case s : String) : String :=
  if filename_case = "uppercase" then pyUpper s
  else if filename_case = "lowercase" then pyLower s
  else s

/-- Lines 65-73: the `overwrite_upd_timestamp` step. `some ""` means the step produced
no date and selection advances; `some d` a produced date; `none` an uncaught
exception from `fromtimestamp`. -/
def overwriteDate (row : Row) : Option String :=
  match alistFind? row "overwrite_upd_timestamp" with
  | none => some ""
  | some s =>
    if s = "" then some ""
    else
      match parsePyFloat s with
      | none => some ""
      | some f => if pyFloatTruthy f then pyFromtimestampDate f else some ""

/-- Line 76: `row.get("tic_upd_date") or row.get("tic_pub_date", "")`. -/
def ticDate (row : Row) : String :=
  pyOr (alistGet row "tic_upd_date" "") (alistGet row "tic_pub_date" "")

/-- The `upd_ts` / `lastmod_ts` pattern of lines 79-94: a Python variable holding
`None` (the field is missing, empty, or fails `float()`) or a float. -/
def parseTsField (row : Row) (k : String) : Option PyFloat :=
  match alistFind? row k with
  | none => none
  | some s => if s = "" then none else parsePyFloat s

/-- Python truthiness of a variable holding `None` or a float. -/
def tsTruthy : Option PyFloat → Bool
  | some f => pyFloatTruthy f
  | none => false

/-- Lines 96-110: the `selected_ts` chosen in the catalogB branch. Note every test
in the chain is Python truthiness, so a timestamp equal to `0` is skipped. -/
def itchSelectedTs (row : Row) : Option PyFloat :=
  let lastmod_ts := parseTsField row "itch_lastmodified_timestamp"
  let upd_ts := parseTsField row "itch_upd_timestamp"
  match upd_ts, lastmod_ts with
  | some u, some l =>
    if pyFloatTruthy u ∧ pyFloatTruthy l then some (pyMin u l)
    else if pyFloatTruthy u then some u
    else if pyFloatTruthy l then some l
    else parseTsField row "itch_pub_timestamp"
  | some u, none =>
    if pyFloatTruthy u then some u else parseTsField row "itch_pub_timestamp"
  | none, some l =>
    if pyFloatTruthy l then some l else parseTsField row "itch_pub_timestamp"
  | none, none => parseTsField row "itch_pub_timestamp"

/-- Lines 78-115: the date-selection steps after the overwrite step, i.e. the
catalogA date fields (guarded by the *exact, default-on-missing* source test of
line 75) and the catalogB timestamp chain. -/
def restUpdateDate (row : Row) : Option String :=
  let ticPart :=
    if alistGet row "source_with_bestversion" "tic80com" = "tic80com" then ticDate row
    else ""
  if ticPart ≠ "" then some ticPart
  else
    match itchSelectedTs row with
    | some f =>
      if pyFloatTruthy f then pyFromtimestampDate f else some (ticDate row)
    | none => some (ticDate row)

/-- The full `update_date` computation of lines 63-115. -/
def computeUpdateDate (row : Row) : Option String :=
  match overwriteDate row with
  | none => none
  | some d => if d ≠ "" then some d else restUpdateDate row

/-- `generate_filename_and_gamename` (`filename_utils.py`); `none` models an uncaught
exception from `datetime.fromtimestamp`. -/
def generate_filename_and_gamename (row : Row)
    (use_custom_filenames use_custom_gamenames filename_category_parenthesis : Bool)
    (filename_case rom_folder_organization : String) : Option FileInfo :=
  let game_id := get_primary_game_id row
  let orig_name :=
    pyOr (alistGet row "name_original_reference" "") (alistGet row "itch_titlename" "")
  let overwrite_name := pyStrip (alistGet row "name_overwrite" "")
  let game_category := get_rom_category row
  match computeUpdateDate row with
  | none => none
  | some update_date =>
    let base_filename_name :=
      if use_custom_filenames = true ∧ overwrite_name ≠ "" then overwrite_name else orig_name
    let game_name :=
      if use_custom_gamenames = true ∧ overwrite_name ≠ "" then overwrite_name else orig_name
    let category_suffix :=
      categorySuffix game_category filename_category_parenthesis rom_folder_organization
    let pre_filename := base_filename_name ++ category_suffix
    let pre_filename := applyCase filename_case pre_filename
    let base_filename_name := applyCase filename_case base_filename_name
    let base_filename_name := create_safe_filename base_filename_name
    let pre_filename := create_safe_filename pre_filename
    let game_name := create_safe_filename game_name
    some {
      pre_filename := pre_filename
      gamename := game_name
      rom_filename := pre_filename ++ " - " ++ game_id ++ " (" ++ update_date ++ ").tic"
      image_filename := base_filename_name ++ " - " ++ game_id ++ ".png" }

/-! ## csv_manager.py -/

/-- The in-memory database: a Python dict keyed by the primary game id, in insertion
order. -/
abbrev Store := List (String × Row)

/-- Lines 46-48 of `load_csv_database`: unconditional indexing of the three
identifier columns (`KeyError` when a column is missing from the header) and
in-place normalization (`normalize_id` itself can raise on infinite input). -/
def loadRow (row : Row) : Option Row :=
  match alistFind? row "id" with
  | none => none
  | some idv =>
    match normalize_id idv with
    | none => none
    | some idn =>
      let row := alistSet row "id" idn
      match alistFind? row "itch_id" with
      | none => none
      | some itchv =>
        match normalize_id itchv with
        | none => none
        | some itchn =>
          let row := alistSet row "itch_id" itchn
          match alistFind? row "tic_id" with
          | none => none
          | some ticv =>
            match normalize_id ticv with
            | none => none
            | some ticn => some (alistSet row "tic_id" ticn)

/-- One iteration of the load loop (lines 45-57): store the normalized row under its
primary game id, skipping rows with no resolvable identifier. -/
def loadStep (db : Store) (row : Row) : Option Store :=
  match loadRow row with
  | none => none
  | some r =>
    let game_id := get_primary_game_id r
    some (if game_id ≠ "" then alistSet db game_id r else db)

/-- `load_csv_database` over the parsed data rows of an existing file. -/
def load_csv_database (rows : List Row) : Option Store :=
  rows.foldlM loadStep []

/-- `load_csv_database` including the missing-file path (lines 37-39): `none` input
models an absent store file, which yields an empty database. -/
def load_csv_file : Option (List Row) → Option Store
  | none => some []
  | some rows => load_csv_database rows

/-- The sort key string of `save_csv_database` (lines 96-109): lower-cased, stripped
first non-empty display-name field, a space, and the zero-right-justified `id`
field. -/
def saveKey (r : Row) : String :=
  pyStrip (pyLower (pyOr (alistGet r "sortname" "")
      (pyOr (alistGet r "name_overwrite" "")
        (pyOr (alistGet r "name_original_reference" "")
          (pyOr (alistGet r "itch_titlename" "") ""))))) ++
    " " ++ pyRjust (pyStrip (alistGet r "id" "")) 10 '0'

/-- The row order written by `save_csv_database`: Python's stable sort of
`database.values()` by `saveKey`. -/
def save_sorted_rows (db : Store) : List Row :=
  (db.map Prod.snd).mergeSort (fun a b => saveKey a ≤ saveKey b)

/-! ## Specification-side definitions (for refinement claims) -/

/-- The primary-identifier selection rule exactly as the specification words it:
trim and case-fold `source_with_bestversion`; prefer `tic_id` when it is
`tic80com` or empty, `itch_id` when it is `itch`, the free-form `id` otherwise;
when the preferred field is empty fall back in the fixed order
`tic_id`, `itch_id`, `id`; empty (the falsy "nothing") when all three are empty. -/
def specPrimaryId (row : Row) : String :=
  let src := pyLower (pyStrip (alistGet row "source_with_bestversion" ""))
  let tic := alistGet row "tic_id" ""
  let itch := alistGet row "itch_id" ""
  let idv := alistGet row "id" ""
  let pref :=
    if src = "tic80com" ∨ src = "" then tic
    else if src = "itch" then itch
    else idv
  if pref ≠ "" then pref
  else if tic ≠ "" then tic
  else if itch ≠ "" then itch
  else idv

/-- C1: `get_primary_game_id` implements exactly the specified precedence rule
(preferred source trimmed and case-folded; `tic80com`/empty prefer `tic_id`,
`itch` prefers `itch_id`, other non-empty sources prefer `id`; an empty preferred
field falls back in the order `tic_id`, `itch_id`, `id`), and its result is the
falsy empty value — the function's rendering of "nothing" — exactly when all
three identifier fields are empty; hence it is a non-empty string whenever some
identifier field is non-empty. -/
theorem get_primary_game_id_spec (row : Row) :
    get_primary_game_id row = specPrimaryId row ∧
    (get_primary_game_id row = "" ↔
      alistGet row "tic_id" "" = "" ∧ alistGet row "itch_id" "" = "" ∧
        alistGet row "id" "" = "") := by
  unfold get_primary_game_id specPrimaryId pyOr
  dsimp only
  split_ifs <;> simp_all

/-- Helper: a category-parenthesis suffix is never the empty string. -/
theorem parenSuffix_ne_empty (s : String) : " (" ++ s ++ ")" ≠ "" := by
  intro h
  have h2 := congrArg String.data h
  simp [String.data_append] at h2

/-- C5: a category suffix is appended iff `rom_folder_organization = "single"`,
`filename_category_parenthesis` is enabled and the effective category is not
`"Games"`; the suffix is `" (<name>)"` with `"Tools"` mapped to `"Tool"`,
`"Demoscene"` never singularized, and any other category ending in `s` losing
its final letter (so `"Sports"` gives `" (Sport)"`); and in
`generate_filename_and_gamename` the suffix lands in the filename base
(`pre_filename`) only, never in the display name (`gamename`). -/
theorem generate_category_suffix_spec :
    (∀ cat fcp rfo, categorySuffix cat fcp rfo ≠ "" ↔
      rfo = "single" ∧ fcp = true ∧ cat ≠ "Games") ∧
    categorySuffix "Tools" true "single" = " (Tool)" ∧
    categorySuffix "Demoscene" true "single" = " (Demoscene)" ∧
    categorySuffix "Sports" true "single" = " (Sport)" ∧
    (∀ cat, cat ≠ "Games" → cat ≠ "Tools" → cat ≠ "Demoscene" →
      cat.data.getLast? = some 's' →
      categorySuffix cat true "single" = " (" ++ String.mk cat.data.dropLast ++ ")") ∧
    (∀ row ucf ucg fcp fc rfo fi,
      generate_filename_and_gamename row ucf ucg fcp fc rfo = some fi →
      fi.pre_filename = create_safe_filename (applyCase fc
        ((if ucf = true ∧ pyStrip (alistGet row "name_overwrite" "") ≠ ""
            then pyStrip (alistGet row "name_overwrite" "")
            else pyOr (alistGet row "name_original_reference" "")
              (alistGet row "itch_titlename" "")) ++
          categorySuffix (get_rom_category row) fcp rfo)) ∧
      fi.gamename = create_safe_filename
        (if ucg = true ∧ pyStrip (alistGet row "name_overwrite" "") ≠ ""
            then pyStrip (alistGet row "name_overwrite" "")
            else pyOr (alistGet row "name_original_reference" "")
              (alistGet row "itch_titlename" ""))) := by
  refine ⟨?_, by decide, by decide, by decide, ?_, ?_⟩
  · intro cat fcp rfo
    unfold categorySuffix
    split_ifs with h <;> simp_all [parenSuffix_ne_empty]
  · intro cat h1 h2 h3 h4
    unfold categorySuffix
    simp [h1, h2, h3, h4]
  · intro row ucf ucg fcp fc rfo fi hgen
    unfold generate_filename_and_gamename at hgen
    cases hcd : computeUpdateDate row with
    | none => rw [hcd] at hgen; simp at hgen
    | some d =>
      rw [hcd] at hgen
      dsimp only at hgen
      cases hgen
      exact ⟨rfl, rfl⟩
/-! ## Date-selection helper lemmas -/

/-- A successfully rendered date string is never empty. -/
theorem pyFromtimestampDate_ne_some_empty (f : PyFloat) :
    pyFromtimestampDate f ≠ some "" := by
  cases f with
  | finite q =>
    unfold pyFromtimestampDate fromtimestampDate
    dsimp only
    split_ifs
    · intro h
      rw [Option.some_inj] at h
      have h2 := congrArg String.data h
      simp [String.data_append] at h2
    · simp
  | inf => simp [pyFromtimestampDate]
  | ninf => simp [pyFromtimestampDate]
  | nan => simp [pyFromtimestampDate]

/-- When the overwrite step yields no date, selection continues with the rest of
the precedence chain. -/
theorem computeUpdateDate_of_overwrite_none (row : Row)
    (h : overwriteDate row = some "") :
    computeUpdateDate row = restUpdateDate row := by
  unfold computeUpdateDate
  rw [h]
  simp

/-- C2 (amended): when `overwrite_upd_timestamp` is present and parses as a number
other than zero, the effective date is computed from that timestamp regardless of
any source field (a non-finite or out-of-range instant propagates the
`fromtimestamp` exception instead of producing a date); when the field is absent,
empty, unparseable — or parses to the falsy value zero — the step produces no
date, raises nothing, and selection advances to the remaining precedence rules;
and a produced date is embedded verbatim in the generated ROM filename. -/
theorem overwrite_timestamp_precedence (row : Row) :
    (∀ s f, alistFind? row "overwrite_upd_timestamp" = some s →
      parsePyFloat s = some f → pyFloatTruthy f = true →
      computeUpdateDate row = pyFromtimestampDate f) ∧
    (∀ s f, alistFind? row "overwrite_upd_timestamp" = some s →
      parsePyFloat s = some f → pyFloatTruthy f = false →
      computeUpdateDate row = restUpdateDate row) ∧
    (∀ s, alistFind? row "overwrite_upd_timestamp" = some s →
      parsePyFloat s = none → computeUpdateDate row = restUpdateDate row) ∧
    (alistFind? row "overwrite_upd_timestamp" = none →
      computeUpdateDate row = restUpdateDate row) ∧
    (∀ ucf ucg fcp fc rfo d fi, computeUpdateDate row = some d →
      generate_filename_and_gamename row ucf ucg fcp fc rfo = some fi →
      fi.rom_filename =
        fi.pre_filename ++ " - " ++ get_primary_game_id row ++ " (" ++ d ++ ").tic") := by
  refine ⟨?_, ?_, ?_, ?_, ?_⟩
  · intro s f h1 h2 h3
    have hs : s ≠ "" := by
      intro he
      rw [he, show parsePyFloat "" = none by decide] at h2
      cases h2
    have ho : overwriteDate row = pyFromtimestampDate f := by
      unfold overwriteDate
      rw [h1]
      simp [hs, h2, h3]
    unfold computeUpdateDate
    rw [ho]
    cases hf : pyFromtimestampDate f with
    | none => simp
    | some d =>
      have hd : d ≠ "" := by
        intro he
        exact pyFromtimestampDate_ne_some_empty f (he ▸ hf)
      simp [hd]
  · intro s f h1 h2 h3
    have hs : s ≠ "" := by
      intro he
      rw [he, show parsePyFloat "" = none by decide] at h2
      cases h2
    refine computeUpdateDate_of_overwrite_none row ?_
    unfold overwriteDate
    rw [h1]
    simp [hs, h2, h3]
  · intro s h1 h2
    refine computeUpdateDate_of_overwrite_none row ?_
    unfold overwriteDate
    rw [h1]
    by_cases hs : s = "" <;> simp [hs, h2]
  · intro h1
    refine computeUpdateDate_of_overwrite_none row ?_
    unfold overwriteDate
    rw [h1]
  · intro ucf ucg fcp fc rfo d fi hcd hgen
    unfold generate_filename_and_gamename at hgen
    rw [hcd] at hgen
    dsimp only at hgen
    cases hgen
    rfl

/-- The record of the C2 counterexample with a zero overwrite timestamp. -/
def c2RowZero : Row :=
  [("overwrite_upd_timestamp", "0"), ("source_with_bestversion", "tic80com"),
    ("tic_upd_date", "2022-01-01")]

/-- The record of the C2 counterexample with an infinite overwrite timestamp. -/
def c2RowInf : Row := [("overwrite_upd_timestamp", "inf")]

/-- C2 counterexample: `"0"` is present and parses as the number zero, yet the
effective date is taken from `tic_upd_date`, not rendered from instant zero; and
`"inf"` parses as a number, yet the generator raises (no date at all) instead of
deriving the date from it. -/
theorem overwrite_timestamp_claim_counterexample :
    parsePyFloat "0" = some (.finite ⟨0, 1⟩) ∧
    computeUpdateDate c2RowZero = some "2022-01-01" ∧
    pyFromtimestampDate (.finite ⟨0, 1⟩) = some "1970-01-01" ∧
    ("2022-01-01" : String) ≠ "1970-01-01" ∧
    parsePyFloat "inf" = some .inf ∧
    computeUpdateDate c2RowInf = none ∧
    generate_filename_and_gamename c2RowInf false false false "unchanged" "single" = none := by
  decide

/-- C2 witness: a present, parsing, nonzero overwrite timestamp wins. -/
theorem overwrite_timestamp_precedence_witness :
    computeUpdateDate
        [("overwrite_upd_timestamp", "1640995200"), ("tic_upd_date", "1999-01-01")] =
      pyFromtimestampDate (.finite ⟨1640995200, 1⟩) :=
  (overwrite_timestamp_precedence _).1 "1640995200" _ (by decide) (by decide) (by decide)
/-- C3 (amended): after the overwrite step produced no date, the catalogA date
fields (`tic_upd_date`, else `tic_pub_date`, used directly with no timestamp
arithmetic) are selected when the `source_with_bestversion` field is *absent
from the record* or exactly equal to `"tic80com"` — the line-75 test applies no
trimming or case-folding and its `"tic80com"` default only kicks in for a
missing key, so a present-but-empty source value falls through to the catalogB
branch instead. -/
theorem ticdate_selection (row : Row)
    (hov : overwriteDate row = some "")
    (hsrc : alistGet row "source_with_bestversion" "tic80com" = "tic80com") :
    (ticDate row ≠ "" → computeUpdateDate row = some (ticDate row)) ∧
    ticDate row =
      (if alistGet row "tic_upd_date" "" ≠ "" then alistGet row "tic_upd_date" ""
       else alistGet row "tic_pub_date" "") := by
  constructor
  · intro ht
    rw [computeUpdateDate_of_overwrite_none row hov]
    unfold restUpdateDate
    simp only [hsrc, if_pos rfl, ht, if_true]
    simp [ht]
  · unfold ticDate pyOr
    split_ifs <;> simp_all

/-- The record of the C3 counterexample: the source field is present but empty. -/
def c3Row : Row :=
  [("source_with_bestversion", ""), ("tic_upd_date", "2022-01-01"),
    ("tic_pub_date", "2020-01-01"), ("itch_upd_timestamp", "1000000000")]

/-- C3 counterexample: the claim's own example record (overwrite absent, preferred
source empty, `tic_upd_date` `"2022-01-01"`) with a catalogB update timestamp
present: the effective date is rendered from the itch timestamp, not taken from
`tic_upd_date`, because the empty-but-present source fails the exact
`== "tic80com"` test of line 75. -/
theorem ticdate_claim_counterexample :
    alistFind? c3Row "overwrite_upd_timestamp" = none ∧
    alistFind? c3Row "source_with_bestversion" = some "" ∧
    alistGet c3Row "tic_upd_date" "" = "2022-01-01" ∧
    computeUpdateDate c3Row = some "2001-09-09" ∧
    ("2001-09-09" : String) ≠ "2022-01-01" := by
  decide

/-- C3 witness: with the source key missing from the record, the catalogA date
fields win even with an itch timestamp present. -/
theorem ticdate_selection_witness :
    computeUpdateDate
        [("tic_upd_date", "2022-01-01"), ("tic_pub_date", "2020-01-01"),
          ("itch_upd_timestamp", "1000000000")] =
      some (ticDate
        [("tic_upd_date", "2022-01-01"), ("tic_pub_date", "2020-01-01"),
          ("itch_upd_timestamp", "1000000000")]) :=
  (ticdate_selection _ (by decide) (by decide)).1 (by decide)

/-- C4 (amended): in the catalogB branch every test is Python truthiness, so a
timestamp must parse to a *nonzero* number to count: when both `itch_upd_timestamp`
and `itch_lastmodified_timestamp` do, the earlier (Python `min`) instant is
selected; when exactly one does, that one; otherwise the parse of
`itch_pub_timestamp` is selected; and the effective date is rendered from the
selected timestamp when it is truthy (raising on a non-finite instant), falling
back to `tic_upd_date` else `tic_pub_date` when nothing truthy was selected. An
update timestamp after the lastmodified timestamp indeed yields the lastmodified
instant. -/
theorem itch_timestamp_selection (row : Row) :
    (∀ u l, parseTsField row "itch_upd_timestamp" = some u →
      parseTsField row "itch_lastmodified_timestamp" = some l →
      pyFloatTruthy u = true → pyFloatTruthy l = true →
      itchSelectedTs row = some (pyMin u l)) ∧
    (∀ u, parseTsField row "itch_upd_timestamp" = some u → pyFloatTruthy u = true →
      tsTruthy (parseTsField row "itch_lastmodified_timestamp") = false →
      itchSelectedTs row = some u) ∧
    (∀ l, parseTsField row "itch_lastmodified_timestamp" = some l →
      pyFloatTruthy l = true →
      tsTruthy (parseTsField row "itch_upd_timestamp") = false →
      itchSelectedTs row = some l) ∧
    (tsTruthy (parseTsField row "itch_upd_timestamp") = false →
      tsTruthy (parseTsField row "itch_lastmodified_timestamp") = false →
      itchSelectedTs row = parseTsField row "itch_pub_timestamp") ∧
    (∀ u l, pyFloatLt l u = true → pyMin u l = l) ∧
    (overwriteDate row = some "" →
      ¬ (alistGet row "source_with_bestversion" "tic80com" = "tic80com" ∧
          ticDate row ≠ "") →
      computeUpdateDate row =
        (match itchSelectedTs row with
          | some f => if pyFloatTruthy f then pyFromtimestampDate f
                      else some (ticDate row)
          | none => some (ticDate row))) := by
  refine ⟨?_, ?_, ?_, ?_, ?_, ?_⟩
  · intro u l h1 h2 h3 h4
    unfold itchSelectedTs
    rw [h1, h2]
    simp [h3, h4]
  · intro u h1 h2 h3
    unfold itchSelectedTs
    rw [h1]
    cases h5 : parseTsField row "itch_lastmodified_timestamp" with
    | none => simp [h2]
    | some l =>
      rw [h5] at h3
      simp only [tsTruthy] at h3
      simp [h2, h3]
  · intro l h1 h2 h3
    unfold itchSelectedTs
    rw [h1]
    cases h5 : parseTsField row "itch_upd_timestamp" with
    | none => simp [h2]
    | some u =>
      rw [h5] at h3
      simp only [tsTruthy] at h3
      simp [h2, h3]
  · intro h1 h2
    unfold itchSelectedTs
    cases h5 : parseTsField row "itch_upd_timestamp" with
    | none =>
      cases h6 : parseTsField row "itch_lastmodified_timestamp" with
      | none => rfl
      | some l =>
        rw [h6] at h2
        simp only [tsTruthy] at h2
        simp [h2]
    | some u =>
      rw [h5] at h1
      simp only [tsTruthy] at h1
      cases h6 : parseTsField row "itch_lastmodified_timestamp" with
      | none => simp [h1]
      | some l =>
        rw [h6] at h2
        simp only [tsTruthy] at h2
        simp [h1, h2]
  · intro u l h
    unfold pyMin
    simp [h]
  · intro hov hno
    rw [computeUpdateDate_of_overwrite_none row hov]
    unfold restUpdateDate
    dsimp only
    have hempty :
        (if alistGet row "source_with_bestversion" "tic80com" = "tic80com"
          then ticDate row else "") = "" ∨
        ticDate row = "" := by
      by_cases hs : alistGet row "source_with_bestversion" "tic80com" = "tic80com"
      · right
        by_cases ht : ticDate row = ""
        · exact ht
        · exact absurd ⟨hs, ht⟩ hno
      · left
        simp [hs]
    rcases hempty with h | h
    · rw [h]
      simp
    · by_cases hs : alistGet row "source_with_bestversion" "tic80com" = "tic80com" <;>
        simp [hs, h]

/-- The record of the C4 counterexample: the update timestamp parses to zero. -/
def c4Row : Row :=
  [("source_with_bestversion", "itch"), ("itch_upd_timestamp", "0"),
    ("itch_lastmodified_timestamp", "1000000000")]

/-- C4 counterexample: both itch timestamps parse as numbers, the minimum of the
two instants is instant zero, yet the effective date is rendered from the
lastmodified instant — the zero update timestamp is falsy and is skipped, so the
claimed earliest-wins rule over all parsing timestamps does not hold. -/
theorem earliest_wins_claim_counterexample :
    parsePyFloat "0" = some (.finite ⟨0, 1⟩) ∧
    parsePyFloat "1000000000" = some (.finite ⟨1000000000, 1⟩) ∧
    pyMin (.finite ⟨0, 1⟩) (.finite ⟨1000000000, 1⟩) = .finite ⟨0, 1⟩ ∧
    pyFromtimestampDate (.finite ⟨0, 1⟩) = some "1970-01-01" ∧
    computeUpdateDate c4Row = some "2001-09-09" ∧
    ("2001-09-09" : String) ≠ "1970-01-01" := by
  decide

/-- C4 witness: with two truthy itch timestamps the earlier one is selected and
rendered. -/
theorem itch_timestamp_selection_witness :
    itchSelectedTs
        [("source_with_bestversion", "itch"), ("itch_upd_timestamp", "1640995200"),
          ("itch_lastmodified_timestamp", "1000000000")] =
      some (pyMin (.finite ⟨1640995200, 1⟩) (.finite ⟨1000000000, 1⟩)) ∧
    computeUpdateDate
        [("source_with_bestversion", "itch"), ("itch_upd_timestamp", "1640995200"),
          ("itch_lastmodified_timestamp", "1000000000")] =
      some "2001-09-09" := by
  constructor
  · exact (itch_timestamp_selection _).1 _ _ (by decide) (by decide) (by decide) (by decide)
  · have h := (itch_timestamp_selection
      [("source_with_bestversion", "itch"), ("itch_upd_timestamp", "1640995200"),
        ("itch_lastmodified_timestamp", "1000000000")]).2.2.2.2.2 (by decide) (by decide)
    rw [h]
    decide
/-- The record used by the C5 witness. -/
def c5Row : Row :=
  [("tic_id", "42"), ("name_original_reference", "My Game"),
    ("tic_category", "Sports"), ("tic_upd_date", "2022-01-01")]

/-- C5 witness: at a concrete record with category `Sports`, the suffix is
`" (Sport)"`, lands in the filename base and not in the display name. -/
theorem generate_category_suffix_spec_witness :
    categorySuffix "Sports" true "single" = " (" ++ String.mk "Sports".data.dropLast ++ ")" ∧
    (generate_filename_and_gamename c5Row false false true "unchanged" "single").map
        FileInfo.pre_filename = some "My Game (Sport)" ∧
    (generate_filename_and_gamename c5Row false false true "unchanged" "single").map
        FileInfo.gamename = some "My Game" := by
  refine ⟨generate_category_suffix_spec.2.2.2.2.1 "Sports" (by decide) (by decide)
    (by decide) (by decide), ?_, ?_⟩
  · cases hg : generate_filename_and_gamename c5Row false false true "unchanged" "single" with
    | none => exact absurd hg (by decide)
    | some fi =>
      have h := (generate_category_suffix_spec.2.2.2.2.2 c5Row false false true
        "unchanged" "single" fi hg).1
      show some fi.pre_filename = some "My Game (Sport)"
      rw [h]
      decide
  · cases hg : generate_filename_and_gamename c5Row false false true "unchanged" "single" with
    | none => exact absurd hg (by decide)
    | some fi =>
      have h := (generate_category_suffix_spec.2.2.2.2.2 c5Row false false true
        "unchanged" "single" fi hg).2
      show some fi.gamename = some "My Game"
      rw [h]
      decide

/-- The record fields that `generate_filename_and_gamename` reads. -/
def namingFields : List String :=
  ["source_with_bestversion", "tic_id", "itch_id", "id",
    "name_original_reference", "itch_titlename", "name_overwrite",
    "rom_category", "tic_category",
    "overwrite_upd_timestamp", "tic_upd_date", "tic_pub_date",
    "itch_lastmodified_timestamp", "itch_upd_timestamp", "itch_pub_timestamp"]

/-- C6: filename/display-name generation is a pure, deterministic function of the
record and the naming options — two invocations on equal inputs are byte-identical
(there is no clock or randomness in the model, which mirrors the code's only
inputs) — and it is noninterfering: two records that agree on the fields listed
in `namingFields` (so records differing only in, say, a description field)
generate identical `FileInfo` outputs, in particular identical `rom_filename`s. -/
theorem generate_pure_and_noninterfering :
    (∀ row ucf ucg fcp fc rfo,
      generate_filename_and_gamename row ucf ucg fcp fc rfo =
        generate_filename_and_gamename row ucf ucg fcp fc rfo) ∧
    (∀ r₁ r₂, (∀ k, k ∈ namingFields → alistFind? r₁ k = alistFind? r₂ k) →
      ∀ ucf ucg fcp fc rfo,
        generate_filename_and_gamename r₁ ucf ucg fcp fc rfo =
          generate_filename_and_gamename r₂ ucf ucg fcp fc rfo) := by
  refine ⟨fun _ _ _ _ _ _ => rfl, ?_⟩
  intro r₁ r₂ h ucf ucg fcp fc rfo
  have hsrc := h "source_with_bestversion" (by decide)
  have htic := h "tic_id" (by decide)
  have hitc := h "itch_id" (by decide)
  have hid := h "id" (by decide)
  have hnor := h "name_original_reference" (by decide)
  have httl := h "itch_titlename" (by decide)
  have hovw := h "name_overwrite" (by decide)
  have hrc := h "rom_category" (by decide)
  have htc := h "tic_category" (by decide)
  have hots := h "overwrite_upd_timestamp" (by decide)
  have htud := h "tic_upd_date" (by decide)
  have htpd := h "tic_pub_date" (by decide)
  have hlm := h "itch_lastmodified_timestamp" (by decide)
  have hut := h "itch_upd_timestamp" (by decide)
  have hpt := h "itch_pub_timestamp" (by decide)
  have h1 : get_primary_game_id r₁ = get_primary_game_id r₂ := by
    simp only [get_primary_game_id, alistGet, hsrc, htic, hitc, hid]
  have h2 : get_rom_category r₁ = get_rom_category r₂ := by
    simp only [get_rom_category, alistGet, hsrc, hrc, htc]
  have h3 : overwriteDate r₁ = overwriteDate r₂ := by
    simp only [overwriteDate, hots]
  have h4 : ticDate r₁ = ticDate r₂ := by
    simp only [ticDate, alistGet, htud, htpd]
  have h5 : itchSelectedTs r₁ = itchSelectedTs r₂ := by
    simp only [itchSelectedTs, parseTsField, hlm, hut, hpt]
  have h6 : restUpdateDate r₁ = restUpdateDate r₂ := by
    simp only [restUpdateDate, alistGet, hsrc, h4, h5]
  have h7 : computeUpdateDate r₁ = computeUpdateDate r₂ := by
    simp only [computeUpdateDate, h3, h6]
  simp only [generate_filename_and_gamename, alistGet, h1, h2, h7, hnor, httl, hovw]

/-- First record of the C6 witness (a description field to be varied). -/
def c6RowA : Row :=
  [("tic_id", "42"), ("name_original_reference", "My Game"),
    ("tic_upd_date", "2022-01-01"), ("description", "old text")]

/-- Second record of the C6 witness: only the description differs. -/
def c6RowB : Row :=
  [("tic_id", "42"), ("name_original_reference", "My Game"),
    ("tic_upd_date", "2022-01-01"), ("description", "a completely different text")]

/-- C6 witness: records differing only in a description field generate identical
output. -/
theorem generate_pure_and_noninterfering_witness :
    generate_filename_and_gamename c6RowA true true true "lowercase" "single" =
      generate_filename_and_gamename c6RowB true true true "lowercase" "single" :=
  generate_pure_and_noninterfering.2 c6RowA c6RowB (by decide) true true true
    "lowercase" "single"

/-- C7 (amended): the rows written by `save_csv_database` are a permutation of the
stored records, sorted (weakly increasing) by the single concatenated string key
`saveKey` — the lower-cased, stripped first non-empty display-name field, a
space, then the record's free-form `id` field stripped and left-padded with `0`
to width 10. -/
theorem save_rows_sorted (db : Store) :
    List.Pairwise (fun a b => saveKey a ≤ saveKey b) (save_sorted_rows db) ∧
    (save_sorted_rows db).Perm (db.map Prod.snd) := by
  constructor
  · have h := @List.sorted_mergeSort Row (fun a b => decide (saveKey a ≤ saveKey b))
      (fun a b c hab hbc => by
        simp only [decide_eq_true_eq] at *
        exact le_trans hab hbc)
      (fun a b => by
        simp only [Bool.or_eq_true, decide_eq_true_eq]
        exact le_total _ _)
      (db.map Prod.snd)
    refine List.Pairwise.imp ?_ h
    intro a b hab
    simpa using hab
  · exact List.mergeSort_perm _ _

/-- First record of the C7 counterexample: empty free-form id, canonical id `5`. -/
def c7RowA : Row := [("tic_id", "5"), ("id", ""), ("sortname", "x")]

/-- Second record of the C7 counterexample: free-form id `9`, canonical id `3`. -/
def c7RowB : Row := [("tic_id", "3"), ("id", "9"), ("sortname", "x")]

/-- The two-record store of the C7 counterexample. -/
def c7Db : Store := [("5", c7RowA), ("3", c7RowB)]

/-- The claim's sort pair, first component: first non-empty of `sortname`,
`name_overwrite`, `name_original_reference`, `itch_titlename`, lower-cased and
trimmed. -/
def specDisplayKey (r : Row) : String :=
  pyStrip (pyLower (pyOr (alistGet r "sortname" "")
    (pyOr (alistGet r "name_overwrite" "")
      (pyOr (alistGet r "name_original_reference" "")
        (alistGet r "itch_titlename" "")))))

/-- The claim's sort pair, second component: the record's canonical identity
left-padded with zeros to 10 characters. -/
def specIdentityKey (r : Row) : String := pyRjust (get_primary_game_id r) 10 '0'

/-- C7 counterexample: the saved order uses the free-form `id` field, not the
canonical identity, so the record whose claimed pair (display key, zero-padded
canonical identity) is strictly smaller — equal first components, lexicographically
smaller second component — appears second in the output. -/
theorem save_order_claim_counterexample :
    save_sorted_rows c7Db = [c7RowA, c7RowB] ∧
    specDisplayKey c7RowA = specDisplayKey c7RowB ∧
    (specIdentityKey c7RowB).data < (specIdentityKey c7RowA).data ∧
    c7RowA ≠ c7RowB := by
  refine ⟨?_, by decide, by decide, by decide⟩
  simp [save_sorted_rows, c7Db, List.mergeSort, List.merge, c7RowA, c7RowB, saveKey]
  decide
/-! ## Store lemmas -/

/-- Setting a key makes it retrievable. -/
theorem alistFind?_alistSet_self {β : Type} (l : List (String × β)) (k : String) (v : β) :
    alistFind? (alistSet l k v) k = some v := by
  induction l with
  | nil => simp [alistSet, alistFind?]
  | cons p rest ih =>
    obtain ⟨k', v'⟩ := p
    by_cases h : k' = k <;> simp [alistSet, alistFind?, h, ih]

/-- Setting a key leaves other keys untouched. -/
theorem alistFind?_alistSet_ne {β : Type} (l : List (String × β)) (k k' : String) (v : β)
    (h : k' ≠ k) : alistFind? (alistSet l k v) k' = alistFind? l k' := by
  induction l with
  | nil => simp [alistSet, alistFind?, Ne.symm h]
  | cons p rest ih =>
    obtain ⟨k'', v''⟩ := p
    by_cases h2 : k'' = k
    · subst h2
      simp [alistSet, alistFind?, Ne.symm h]
    · simp only [alistSet, if_neg h2]
      by_cases h3 : k'' = k' <;> simp [alistFind?, h3, ih]

/-- Every entry after a set is the new pair or an old entry. -/
theorem mem_alistSet {β : Type} (l : List (String × β)) (k : String) (v : β) (p : String × β)
    (h : p ∈ alistSet l k v) : p = (k, v) ∨ p ∈ l := by
  induction l with
  | nil => simpa [alistSet] using h
  | cons q rest ih =>
    obtain ⟨k', v'⟩ := q
    by_cases h2 : k' = k
    · rw [alistSet, if_pos h2] at h
      rcases List.mem_cons.mp h with h3 | h3
      · exact Or.inl h3
      · exact Or.inr (List.mem_cons_of_mem _ h3)
    · rw [alistSet, if_neg h2] at h
      rcases List.mem_cons.mp h with h3 | h3
      · exact Or.inr (h3 ▸ List.mem_cons_self _ _)
      · rcases ih h3 with h4 | h4
        · exact Or.inl h4
        · exact Or.inr (List.mem_cons_of_mem _ h4)

/-- The key list after a set: unchanged when the key was present, the key appended
otherwise. -/
theorem keys_alistSet {β : Type} (l : List (String × β)) (k : String) (v : β) :
    (alistSet l k v).map Prod.fst =
      if k ∈ l.map Prod.fst then l.map Prod.fst else l.map Prod.fst ++ [k] := by
  induction l with
  | nil => simp [alistSet]
  | cons p rest ih =>
    obtain ⟨k', v'⟩ := p
    by_cases h : k' = k
    · subst h
      simp [alistSet]
    · simp only [alistSet, if_neg h, List.map_cons]
      rw [ih]
      by_cases h2 : k ∈ rest.map Prod.fst <;> simp [h2, Ne.symm h]

/-- Setting a key preserves key uniqueness. -/
theorem nodup_keys_alistSet {β : Type} (l : List (String × β)) (k : String) (v : β)
    (h : (l.map Prod.fst).Nodup) : ((alistSet l k v).map Prod.fst).Nodup := by
  rw [keys_alistSet]
  split_ifs with h2
  · exact h
  · rw [List.nodup_append]
    refine ⟨h, List.nodup_singleton _, ?_⟩
    intro a ha hb
    rw [List.mem_singleton] at hb
    subst hb
    exact h2 ha

/-- The load-loop invariant: every stored entry is keyed by its own non-empty
primary game id, and keys are unique. -/
def StoreInv (db : Store) : Prop :=
  (∀ p ∈ db, p.1 ≠ "" ∧ p.1 = get_primary_game_id p.2) ∧ (db.map Prod.fst).Nodup

/-- One load step preserves the store invariant. -/
theorem loadStep_inv (db db' : Store) (row : Row)
    (h : loadStep db row = some db') (hinv : StoreInv db) : StoreInv db' := by
  unfold loadStep at h
  cases hr : loadRow row with
  | none => rw [hr] at h; cases h
  | some r =>
    rw [hr] at h
    dsimp only at h
    rw [Option.some_inj] at h
    subst h
    split_ifs with hg
    · refine ⟨?_, nodup_keys_alistSet _ _ _ hinv.2⟩
      intro p hp
      rcases mem_alistSet _ _ _ _ hp with h2 | h2
      · subst h2
        exact ⟨hg, rfl⟩
      · exact hinv.1 p h2
    · exact hinv

/-- The load fold preserves the store invariant. -/
theorem load_foldlM_inv (rows : List Row) :
    ∀ db0 db, List.foldlM loadStep db0 rows = some db → StoreInv db0 → StoreInv db := by
  induction rows with
  | nil =>
    intro db0 db h hi
    obtain rfl : db0 = db := by simpa using h
    exact hi
  | cons r rest ih =>
    intro db0 db h hi
    rw [List.foldlM_cons] at h
    cases hs : loadStep db0 r with
    | none => rw [hs] at h; cases h
    | some db1 =>
      rw [hs] at h
      exact ih db1 db h (loadStep_inv db0 db1 r hs hi)

/-- C8: whenever the load loop completes, every retained record is stored under a
non-empty key equal to its own primary game id; keys are unique; a row whose
normalized form resolves to no identifier leaves the store unchanged (it is
dropped, not stored); a duplicate identity is overwritten so a row appended last
wins the key it resolves to; and the claim's concrete two-row example — both rows
normalizing to identity `"7"` — loads to a one-entry store holding the second
row's field values. -/
theorem load_store_invariants :
    (∀ rows db, load_csv_database rows = some db →
      (∀ p ∈ db, p.1 ≠ "" ∧ p.1 = get_primary_game_id p.2) ∧
        (db.map Prod.fst).Nodup) ∧
    (∀ db row r, loadRow row = some r → get_primary_game_id r = "" →
      loadStep db row = some db) ∧
    (∀ rows r db r', load_csv_database (rows ++ [r]) = some db →
      loadRow r = some r' → get_primary_game_id r' ≠ "" →
      alistFind? db (get_primary_game_id r') = some r') ∧
    load_csv_database
        [[("id", "7.0"), ("itch_id", ""), ("tic_id", ""), ("x", "first")],
          [("id", "7"), ("itch_id", ""), ("tic_id", ""), ("x", "second")]] =
      some [("7", [("id", "7"), ("itch_id", ""), ("tic_id", ""), ("x", "second")])] := by
  refine ⟨?_, ?_, ?_, by decide⟩
  · intro rows db h
    exact load_foldlM_inv rows [] db h ⟨by simp, by simp⟩
  · intro db row r h1 h2
    unfold loadStep
    rw [h1]
    simp [h2]
  · intro rows r db r' h h1 h2
    unfold load_csv_database at h
    rw [List.foldlM_append] at h
    rcases Option.bind_eq_some.mp h with ⟨db0, _, h4⟩
    rw [List.foldlM_cons] at h4
    cases hs : loadStep db0 r with
    | none => rw [hs] at h4; cases h4
    | some db1 =>
      rw [hs] at h4
      obtain rfl : db1 = db := by simpa using h4
      unfold loadStep at hs
      rw [h1] at hs
      dsimp only at hs
      rw [Option.some_inj] at hs
      rw [if_pos h2] at hs
      rw [← hs]
      exact alistFind?_alistSet_self db0 _ r'
/-- C8 witness: the invariants hold of the store produced by the claim's own
duplicate-identity example. -/
theorem load_store_invariants_witness :
    (∀ p ∈ [(("7" : String), [("id", "7"), ("itch_id", ""), ("tic_id", ""), ("x", "second")])],
      p.1 ≠ "" ∧ p.1 = get_primary_game_id p.2) ∧
    (([(("7" : String),
        [("id", "7"), ("itch_id", ""), ("tic_id", ""), ("x", "second")])].map Prod.fst).Nodup) :=
  load_store_invariants.1
    [[("id", "7.0"), ("itch_id", ""), ("tic_id", ""), ("x", "first")],
      [("id", "7"), ("itch_id", ""), ("tic_id", ""), ("x", "second")]]
    [(("7" : String), [("id", "7"), ("itch_id", ""), ("tic_id", ""), ("x", "second")])]
    (by decide)

/-- C10: a missing store file yields an empty database, but when the file exists
and a data row lacks one of the columns `id`, `itch_id`, `tic_id` (as every row
does when the header lacks that column), the unconditional indexing raises an
uncaught `KeyError` — the load returns no store at all instead of dropping the
row, unlike the warn-and-continue handling of every other identity defect. -/
theorem load_partiality_on_missing_columns :
    load_csv_file none = some [] ∧
    (∀ r rest, (alistFind? r "id" = none ∨ alistFind? r "itch_id" = none ∨
        alistFind? r "tic_id" = none) →
      load_csv_file (some (r :: rest)) = none) := by
  constructor
  · rfl
  · intro r rest h
    have hl : loadRow r = none := by
      rcases h with h | h | h
      · simp [loadRow, h]
      · cases h1 : alistFind? r "id" with
        | none => simp [loadRow, h1]
        | some idv =>
          cases h2 : normalize_id idv with
          | none => simp [loadRow, h1, h2]
          | some idn =>
            have h3 : alistFind? (alistSet r "id" idn) "itch_id" = none := by
              rw [alistFind?_alistSet_ne _ _ _ _ (by decide)]
              exact h
            simp [loadRow, h1, h2, h3]
      · cases h1 : alistFind? r "id" with
        | none => simp [loadRow, h1]
        | some idv =>
          cases h2 : normalize_id idv with
          | none => simp [loadRow, h1, h2]
          | some idn =>
            cases h3 : alistFind? (alistSet r "id" idn) "itch_id" with
            | none => simp [loadRow, h1, h2, h3]
            | some iv =>
              cases h4 : normalize_id iv with
              | none => simp [loadRow, h1, h2, h3, h4]
              | some inn =>
                have h5 : alistFind?
                    (alistSet (alistSet r "id" idn) "itch_id" inn) "tic_id" = none := by
                  rw [alistFind?_alistSet_ne _ _ _ _ (by decide),
                    alistFind?_alistSet_ne _ _ _ _ (by decide)]
                  exact h
                simp [loadRow, h1, h2, h3, h4, h5]
    show load_csv_database (r :: rest) = none
    unfold load_csv_database
    rw [List.foldlM_cons]
    have hstep : loadStep [] r = none := by
      unfold loadStep
      rw [hl]
    rw [hstep]
    rfl

/-- C10 witness: a data row missing the `id` column crashes the load. -/
theorem load_partiality_witness :
    load_csv_file (some [[("itch_id", "1"), ("tic_id", "2")]]) = none :=
  load_partiality_on_missing_columns.2 _ [] (Or.inl (by decide))
/-! ## Digit-string lemmas for identifier normalization -/

/-- The ten decimal digit characters. -/
def digitChars : List Char := ['0', '1', '2', '3', '4', '5', '6', '7', '8', '9']

/-- Character-level facts about decimal digits. -/
theorem digit_props : ∀ c ∈ digitChars,
    c.isDigit = true ∧ Char.toLower c = c ∧ isPySpace c = false ∧
      c ≠ '-' ∧ c ≠ '+' ∧ c ≠ '.' := by
  decide

/-- Every character printed by `natDigitsGo` is a decimal digit. -/
theorem natDigitsGo_digits (fuel : Nat) :
    ∀ (n : Nat), ∀ c ∈ natDigitsGo fuel n, c ∈ digitChars := by
  induction fuel with
  | zero => intro n c hc; simp [natDigitsGo] at hc
  | succ fuel ih =>
    intro n c hc
    rw [natDigitsGo] at hc
    by_cases h : n < 10
    · rw [if_pos h] at hc
      rw [List.mem_singleton] at hc
      subst hc
      interval_cases n <;> decide
    · rw [if_neg h] at hc
      rcases List.mem_append.mp hc with h2 | h2
      · exact ih _ c h2
      · rw [List.mem_singleton] at h2
        subst h2
        have h3 : n % 10 < 10 := Nat.mod_lt _ (by omega)
        generalize n % 10 = m at h3 ⊢
        interval_cases m <;> decide

/-- Every character printed by `natDigits` is a decimal digit. -/
theorem natDigits_digits (n : Nat) : ∀ c ∈ natDigits n, c ∈ digitChars :=
  natDigitsGo_digits _ n

/-- `natDigitsGo` with enough fuel prints at least one digit. -/
theorem natDigitsGo_ne_nil (fuel n : Nat) (h : n < fuel) : natDigitsGo fuel n ≠ [] := by
  cases fuel with
  | zero => omega
  | succ fuel =>
    rw [natDigitsGo]
    split_ifs <;> simp

/-- `natDigits` prints at least one digit. -/
theorem natDigits_ne_nil (n : Nat) : natDigits n ≠ [] :=
  natDigitsGo_ne_nil _ _ (by omega)

/-- Value of a single printed digit. -/
theorem digToNat_ofNat (d : Nat) (h : d < 10) : digToNat (Char.ofNat (48 + d)) = d := by
  interval_cases d <;> decide

/-- Peeling the least significant digit off a digit-string value. -/
theorem digitsVal_append_one (l : List Char) (c : Char) :
    digitsVal (l ++ [c]) = 10 * digitsVal l + digToNat c := by
  unfold digitsVal
  rw [List.foldl_append]
  rfl

/-- Value of a one-digit string. -/
theorem digitsVal_singleton (c : Char) : digitsVal [c] = digToNat c := by
  unfold digitsVal
  simp [List.foldl]

/-- The printer and the digit-string value function are mutually inverse. -/
theorem digitsVal_natDigitsGo (fuel : Nat) :
    ∀ n, n < fuel → digitsVal (natDigitsGo fuel n) = n := by
  induction fuel with
  | zero => intro n h; omega
  | succ fuel ih =>
    intro n h
    rw [natDigitsGo]
    by_cases h1 : n < 10
    · rw [if_pos h1, digitsVal_singleton, digToNat_ofNat n h1]
    · rw [if_neg h1, digitsVal_append_one, ih (n / 10) (by omega),
        digToNat_ofNat _ (Nat.mod_lt _ (by omega))]
      omega

/-- `digitsVal` recovers the number printed by `natDigits`. -/
theorem digitsVal_natDigits (n : Nat) : digitsVal (natDigits n) = n :=
  digitsVal_natDigitsGo _ _ (by omega)

/-- Lower-casing a digit string is the identity. -/
theorem map_toLower_digits (l : List Char) (h : ∀ c ∈ l, c ∈ digitChars) :
    l.map Char.toLower = l := by
  induction l with
  | nil => rfl
  | cons c t ih =>
    rw [List.map_cons, (digit_props c (h c (List.mem_cons_self c t))).2.1,
      ih (fun d hd => h d (List.mem_cons_of_mem c hd))]

/-- `parseUnsigned` on a pure digit string returns its value over denominator one. -/
theorem parseUnsigned_digits (l : List Char) (hne : l ≠ [])
    (h : ∀ c ∈ l, c ∈ digitChars) : parseUnsigned l = some ⟨digitsVal l, 1⟩ := by
  unfold parseUnsigned
  have ht : l.takeWhile (·.isDigit) = l :=
    List.takeWhile_eq_self_iff.mpr (fun c hc => (digit_props c (h c hc)).1)
  have hd : l.dropWhile (·.isDigit) = [] :=
    List.dropWhile_eq_nil_iff.mpr (fun c hc => (digit_props c (h c hc)).1)
  simp only [ht, hd]
  simp [hne]

/-- `dropWhile` is the identity when the predicate fails everywhere. -/
theorem dropWhile_all_false {p : Char → Bool} (l : List Char)
    (h : ∀ c ∈ l, p c = false) : l.dropWhile p = l := by
  cases l with
  | nil => rfl
  | cons c t =>
    rw [List.dropWhile_cons, if_neg]
    simp [h c (List.mem_cons_self c t)]

/-- `pyStrip` is the identity on whitespace-free strings. -/
theorem pyStrip_mk_nospace (l : List Char) (h : ∀ c ∈ l, isPySpace c = false) :
    pyStrip (String.mk l) = String.mk l := by
  show String.mk (((l.dropWhile (isPySpace ·)).reverse.dropWhile (isPySpace ·)).reverse) =
    String.mk l
  rw [dropWhile_all_false l h,
    dropWhile_all_false l.reverse (fun c hc => h c (List.mem_reverse.mp hc)),
    List.reverse_reverse]

/-- The head surviving a `dropWhile` fails the predicate. -/
theorem head?_dropWhile_false {p : Char → Bool} (l : List Char) (c : Char)
    (h : (l.dropWhile p).head? = some c) : p c = false := by
  induction l with
  | nil => cases h
  | cons a t ih =>
    rw [List.dropWhile_cons] at h
    by_cases h1 : p a = true
    · rw [if_pos h1] at h
      exact ih h
    · rw [if_neg h1] at h
      rw [List.head?_cons, Option.some_inj] at h
      subst h
      simpa using h1

/-- A non-empty `dropWhile` result keeps the last element. -/
theorem getLast?_dropWhile_of_ne_nil {p : Char → Bool} (l : List Char)
    (h : l.dropWhile p ≠ []) : (l.dropWhile p).getLast? = l.getLast? := by
  obtain ⟨t, ht⟩ := List.dropWhile_suffix (l := l) p
  conv_rhs => rw [← ht]
  rw [List.getLast?_append]
  cases hd : (l.dropWhile p).getLast? with
  | none => exact absurd (List.getLast?_eq_none_iff.mp hd) h
  | some c => simp

/-- `pyStrip` is the identity when both ends are not whitespace. -/
theorem pyStrip_eq_self_of_ends (l : List Char)
    (h1 : ∀ c, l.head? = some c → isPySpace c = false)
    (h2 : ∀ c, l.getLast? = some c → isPySpace c = false) :
    pyStrip (String.mk l) = String.mk l := by
  show String.mk (((l.dropWhile (isPySpace ·)).reverse.dropWhile (isPySpace ·)).reverse) =
    String.mk l
  have hA : l.dropWhile (isPySpace ·) = l := by
    cases l with
    | nil => rfl
    | cons a t =>
      rw [List.dropWhile_cons, if_neg]
      simp [h1 a rfl]
  rw [hA]
  have hrev : l.reverse.dropWhile (isPySpace ·) = l.reverse := by
    cases hr : l.reverse with
    | nil => rfl
    | cons a t =>
      have ha : l.getLast? = some a := by
        rw [← List.head?_reverse, hr, List.head?_cons]
      rw [List.dropWhile_cons, if_neg]
      simp [h2 a ha]
  rw [hrev, List.reverse_reverse]

/-- Stripping is idempotent. -/
theorem pyStrip_idem (s : String) : pyStrip (pyStrip s) = pyStrip s := by
  have hdata : (pyStrip s).data =
      ((s.data.dropWhile (isPySpace ·)).reverse.dropWhile (isPySpace ·)).reverse := rfl
  have h1 : ∀ c, (pyStrip s).data.head? = some c → isPySpace c = false := by
    intro c hc
    rw [hdata, List.head?_reverse] at hc
    have hne : (s.data.dropWhile (isPySpace ·)).reverse.dropWhile (isPySpace ·) ≠ [] := by
      intro h0
      rw [h0] at hc
      cases hc
    rw [getLast?_dropWhile_of_ne_nil _ hne, List.getLast?_reverse] at hc
    exact head?_dropWhile_false _ _ hc
  have h2 : ∀ c, (pyStrip s).data.getLast? = some c → isPySpace c = false := by
    intro c hc
    rw [hdata, List.getLast?_reverse] at hc
    exact head?_dropWhile_false _ _ hc
  calc pyStrip (pyStrip s) = pyStrip (String.mk (pyStrip s).data) := rfl
    _ = String.mk (pyStrip s).data := pyStrip_eq_self_of_ends _ h1 h2
    _ = pyStrip s := rfl
/-- `parsePyFloat` on a pure digit string: its value over denominator one. -/
theorem parsePyFloat_mk_digits (l : List Char) (hne : l ≠ [])
    (h : ∀ c ∈ l, c ∈ digitChars) :
    parsePyFloat (String.mk l) = some (.finite ⟨digitsVal l, 1⟩) := by
  obtain ⟨c, t, rfl⟩ := List.exists_cons_of_ne_nil hne
  have hc : c ∈ digitChars := h c (List.mem_cons_self c t)
  have hprops := digit_props c hc
  have hsp : ∀ d ∈ c :: t, isPySpace d = false := fun d hd => (digit_props d (h d hd)).2.2.1
  unfold parsePyFloat
  rw [pyStrip_mk_nospace _ hsp]
  dsimp only
  have hcond : ¬((c :: t).head? = some '-' ∨ (c :: t).head? = some '+') := by
    rw [List.head?_cons]
    simp only [Option.some_inj]
    push_neg
    exact ⟨hprops.2.2.2.1, hprops.2.2.2.2.1⟩
  rw [if_neg hcond, map_toLower_digits _ h]
  have hinf : ¬(c :: t = ['i', 'n', 'f'] ∨ c :: t = ['i', 'n', 'f', 'i', 'n', 'i', 't', 'y']) := by
    rintro (he | he) <;>
      (injection he with h1 h2; subst h1; exact absurd hc (by decide))
  rw [if_neg hinf]
  have hnan : c :: t ≠ ['n', 'a', 'n'] := by
    intro he
    injection he with h1 h2
    subst h1
    exact absurd hc (by decide)
  rw [if_neg hnan, parseUnsigned_digits _ (by simp) h]
  have hneg : ((c :: t).head? = some '-') = False := by
    rw [List.head?_cons]
    simp [hprops.2.2.2.1]
  simp only [hneg]
  simp

/-- `parsePyFloat` inverts the integer printer exactly. -/
theorem parsePyFloat_intStr (k : Int) :
    parsePyFloat (intStr k) = some (.finite ⟨k, 1⟩) := by
  cases k with
  | ofNat n =>
    show parsePyFloat (String.mk (natDigits n)) = _
    rw [parsePyFloat_mk_digits _ (natDigits_ne_nil n) (natDigits_digits n),
      digitsVal_natDigits]
    rfl
  | negSucc n =>
    show parsePyFloat (String.mk ('-' :: natDigits (n + 1))) = _
    have hd := natDigits_digits (n + 1)
    have hsp : ∀ d ∈ '-' :: natDigits (n + 1), isPySpace d = false := by
      intro d hd2
      rcases List.mem_cons.mp hd2 with rfl | hd2
      · decide
      · exact (digit_props d (hd d hd2)).2.2.1
    unfold parsePyFloat
    rw [pyStrip_mk_nospace _ hsp]
    dsimp only
    rw [if_pos (show ('-' :: natDigits (n + 1)).head? = some '-' ∨
        ('-' :: natDigits (n + 1)).head? = some '+' from Or.inl rfl),
      List.tail_cons, map_toLower_digits _ hd]
    obtain ⟨c, t, he⟩ := List.exists_cons_of_ne_nil (natDigits_ne_nil (n + 1))
    have hc : c ∈ digitChars := hd c (he ▸ List.mem_cons_self c t)
    have hinf : ¬(natDigits (n + 1) = ['i', 'n', 'f'] ∨
        natDigits (n + 1) = ['i', 'n', 'f', 'i', 'n', 'i', 't', 'y']) := by
      rw [he]
      rintro (h2 | h2) <;>
        (injection h2 with h3 h4; subst h3; exact absurd hc (by decide))
    rw [if_neg hinf]
    have hnan : natDigits (n + 1) ≠ ['n', 'a', 'n'] := by
      rw [he]
      intro h2
      injection h2 with h3 h4
      subst h3
      exact absurd hc (by decide)
    rw [if_neg hnan, parseUnsigned_digits _ (natDigits_ne_nil (n + 1)) hd,
      digitsVal_natDigits]
    have hneg : (('-' :: natDigits (n + 1)).head? = some '-') = True := by
      rw [List.head?_cons]
      simp
    simp only [hneg]
    simp [Int.negSucc_eq]

/-- The integer printer never prints the empty string. -/
theorem intStr_ne_empty (k : Int) : intStr k ≠ "" := by
  cases k with
  | ofNat n =>
    intro h
    have h2 : natDigits n = [] := congrArg String.data h
    exact natDigits_ne_nil n h2
  | negSucc n =>
    intro h
    have h2 : '-' :: natDigits (n + 1) = [] := congrArg String.data h
    cases h2

/-- The integer printer prints no surrounding whitespace. -/
theorem pyStrip_intStr (k : Int) : pyStrip (intStr k) = intStr k := by
  cases k with
  | ofNat n =>
    exact pyStrip_mk_nospace _
      (fun c hc => (digit_props c (natDigits_digits n c hc)).2.2.1)
  | negSucc n =>
    refine pyStrip_mk_nospace _ ?_
    intro d hd2
    rcases List.mem_cons.mp hd2 with rfl | hd2
    · decide
    · exact (digit_props d (natDigits_digits (n + 1) d hd2)).2.2.1

/-- The integer printer never prints a decimal point. -/
theorem intStr_no_dot (k : Int) : '.' ∉ (intStr k).data := by
  cases k with
  | ofNat n =>
    intro h
    exact absurd (natDigits_digits n _ h) (by decide)
  | negSucc n =>
    intro h
    rcases List.mem_cons.mp h with h2 | h2
    · exact absurd h2 (by decide)
    · exact absurd (natDigits_digits _ _ h2) (by decide)

/-- `normalize_id` is the identity on printed integers. -/
theorem normalize_id_intStr (k : Int) : normalize_id (intStr k) = some (intStr k) := by
  unfold normalize_id
  rw [if_neg (intStr_ne_empty k), pyStrip_intStr]
  dsimp only
  rw [parsePyFloat_intStr]
  show some (intStr (ratTrunc ⟨k, 1⟩)) = some (intStr k)
  unfold ratTrunc
  simp [Int.tdiv_one]
/-- C9: `normalize_id` strips the numeric-as-float artifact (`"329.0"` to `"329"`),
returns non-numeric ids unchanged (`"AB12"`), is idempotent on every value it
returns, and a normalized numeric identifier (the printed truncated integer)
never contains a decimal point. However, the code contradicts its own inline
comment ("If conversion fails ..., return the original string") and the
specified total tolerance: for an input parsing to an infinity, such as
`"inf"`, `int(float(s))` raises an `OverflowError` that the
`except (ValueError, TypeError)` clause does not catch, so `normalize_id`
raises instead of returning a value. -/
theorem normalize_id_spec :
    normalize_id "329.0" = some "329" ∧
    normalize_id "AB12" = some "AB12" ∧
    (∀ x y, normalize_id x = some y → normalize_id y = some y) ∧
    (∀ x q, x ≠ "" → parsePyFloat (pyStrip x) = some (.finite q) →
      normalize_id x = some (intStr (ratTrunc q)) ∧
        '.' ∉ (intStr (ratTrunc q)).data) ∧
    normalize_id "inf" = none := by
  refine ⟨by decide, by decide, ?_, ?_, by decide⟩
  · intro x y h
    by_cases hx : x = ""
    · subst hx
      rw [show normalize_id "" = some "" by decide, Option.some_inj] at h
      subst h
      decide
    · unfold normalize_id at h
      rw [if_neg hx] at h
      dsimp only at h
      cases hp : parsePyFloat (pyStrip x) with
      | none =>
        rw [hp] at h
        rw [Option.some_inj] at h
        subst h
        by_cases hy0 : pyStrip x = ""
        · rw [hy0]
          decide
        · unfold normalize_id
          rw [if_neg hy0]
          dsimp only
          rw [pyStrip_idem, hp]
      | some f =>
        rw [hp] at h
        cases f with
        | finite q =>
          dsimp only at h
          rw [Option.some_inj] at h
          subst h
          exact normalize_id_intStr _
        | inf => cases h
        | ninf => cases h
        | nan =>
          dsimp only at h
          rw [Option.some_inj] at h
          subst h
          by_cases hy0 : pyStrip x = ""
          · rw [hy0]
            decide
          · unfold normalize_id
            rw [if_neg hy0]
            dsimp only
            rw [pyStrip_idem, hp]
  · intro x q hx hp
    constructor
    · unfold normalize_id
      rw [if_neg hx]
      dsimp only
      rw [hp]
    · exact intStr_no_dot _

/-- C9 witness: idempotence applied at the claim's concrete example. -/
theorem normalize_id_spec_witness : normalize_id "329" = some "329" :=
  normalize_id_spec.2.2.1 "329.0" "329" (by decide)
